import Mathlib

/-!
Verification of the camera-session lifecycle of the scanner-app repository.

The repository contains three React scanner components in `src/QrScanner.jsx`
(`QrScanner`, here called the OG variant; `CheckInQRScan`; and a guarded
`QrScanner` variant) plus a simpler component in `src/unnamed/part_001`
(here called PartOne).  Pure fragments (4-digit extraction from decoded
text, device selection, the bodies of `stopScanning`/`start` for fixed
engine outcomes) are embedded as Lean functions.  The re-entrancy behaviour
of `startScanning`/`stopScanning`/unmount cleanup is embedded as a
small-step transition system: each `async` function body is cut at its
`await` points into atomic blocks; a configuration records the mutable refs
(`mountedRef`, `scanningRef`, `initializingRef`, `stoppingRef`), the
engine's self-reported state (`getState`), the number of suspended
continuations parked at each `await`, and counters of issued engine calls.
The engine's reported state changes when an awaited engine operation
resolves; while an operation is pending the engine still reports its
previous state.
-/

namespace ScannerApp

/-- Engine states reported by `getState` (html5-qrcode scanner states used
by the code: SCANNING, PAUSED, everything else treated as not started). -/
inductive EngState
  | notStarted
  | scanning
  | paused
deriving DecidableEq

/-- `state === SCANNING || state === PAUSED`, the condition guarding the
engine stop/clear pair in every stop variant. -/
def engineActive : EngState → Bool
  | EngState.scanning => true
  | EngState.paused => true
  | EngState.notStarted => false

/-- Calls issued to the engine handle by a stop routine. -/
inductive ECall
  | engineStop
  | engineClear
deriving DecidableEq

/-! ### 4-digit extraction (`CheckInQRScan.handleQrDecode`) -/

/-- JavaScript word character class `\w` = `[A-Za-z0-9_]`. -/
def isWordChar (c : Char) : Bool := c.isAlphanum || c == '_'

/-- Four consecutive digits at the head of the list (`\d\{4\}` anchored at
the current scan position). -/
def digits4 : List Char → Bool
  | a :: b :: c :: d :: _ => a.isDigit && b.isDigit && c.isDigit && d.isDigit
  | _ => false

/-- Word boundary after a 4-digit match starting at the head: the fifth
character, if any, is not a word character. -/
def boundaryAfter : List Char → Bool
  | _ :: _ :: _ :: _ :: e :: _ => !isWordChar e
  | _ => true

/-- Scan for the leftmost match of `\b\d\{4\}\b`; `prevWord` says whether the
character before the current position is a word character. -/
def findBoundedAux : Bool → List Char → Option (List Char)
  | _, [] => none
  | prevWord, c :: rest =>
    if !prevWord && digits4 (c :: rest) && boundaryAfter (c :: rest) then
      some ((c :: rest).take 4)
    else
      findBoundedAux (isWordChar c) rest

/-- `decodedText.match(/\b\d\{4\}\b/)`: leftmost word-boundary-delimited
4-digit match. -/
def findBounded (l : List Char) : Option (List Char) := findBoundedAux false l

/-- `decodedText.match(/\d\{4\}/)`: leftmost 4 consecutive digits. -/
def findUnbounded : List Char → Option (List Char)
  | [] => none
  | c :: rest =>
    if digits4 (c :: rest) then some ((c :: rest).take 4)
    else findUnbounded rest

/-- `/^\d\{4\}$/.test(decodedText)`: the whole text is exactly 4 digits. -/
def exact4 (l : List Char) : Bool := l.length == 4 && l.all Char.isDigit

/-- The layered extraction of `handleQrDecode` (QrScanner.jsx lines
468-478): bounded match first, then unbounded match, then
exact-whole-string match; `none` when all three fail. -/
def extractFourDigit (s : String) : Option String :=
  match findBounded s.toList with
  | some m => some (String.mk m)
  | none =>
    match findUnbounded s.toList with
    | some m => some (String.mk m)
    | none => if exact4 s.toList then some s else none

/-- The text contains 4 consecutive digits somewhere. -/
def hasFour : List Char → Bool
  | [] => false
  | c :: rest => digits4 (c :: rest) || hasFour rest

/-- Modelled from the claim wording for C10 (comparison definition): take
the first four digits of the earliest run of at least four consecutive
digits; `prevDigit` says whether the character before the current position
is a digit, so a position qualifies only when it starts a digit run. -/
def firstFourAux : Bool → List Char → Option (List Char)
  | _, [] => none
  | prevDigit, c :: rest =>
    if !prevDigit && digits4 (c :: rest) then some ((c :: rest).take 4)
    else firstFourAux c.isDigit rest

/-- First four digits of the earliest digit run of length at least 4. -/
def firstFourOfEarliestRun (l : List Char) : Option (List Char) :=
  firstFourAux false l

/-- Toast text used by `handleQrDecode` when no 4-digit code is found. -/
def invalidToast : String := "Invalid QR Code - Please scan a valid 4-digit code"

/-! ### Label matching and device selection -/

/-- Case-sensitive: the pattern is a prefix of the text. -/
def headMatches : List Char → List Char → Bool
  | [], _ => true
  | _ :: _, [] => false
  | p :: ps, t :: ts => (p == t) && headMatches ps ts

/-- The pattern occurs somewhere in the text. -/
def occursIn (pat : List Char) : List Char → Bool
  | [] => headMatches pat []
  | t :: ts => headMatches pat (t :: ts) || occursIn pat ts

/-- Case-insensitive containment: the lowercase pattern occurs in the
lowercased text (JS `/i` flag on the ASCII patterns used here). -/
def containsCI (s : String) (pat : String) : Bool :=
  occursIn pat.toList (s.toList.map Char.toLower)

/-- `/facing.*user/i`: an occurrence of `facing` followed, at least 6
characters later, by an occurrence of `user`. -/
def facingAux : List Char → Bool
  | [] => false
  | c :: rest =>
    (headMatches ("facing".toList) (c :: rest)
      && occursIn ("user".toList) ((c :: rest).drop 6))
    || facingAux rest

/-- `/facing.*user/i` tested against a label. -/
def facingUser (label : String) : Bool := facingAux (label.toList.map Char.toLower)

/-- `/front|user|selfie/i` (PartOne `populateCameras` and its retry). -/
def frontLike3 (label : String) : Bool :=
  containsCI label "front" || containsCI label "user" || containsCI label "selfie"

/-- `/front|user|selfie|facing.*user/i` (`getFrontCamera` in
`CheckInQRScan` and both `QrScanner` variants). -/
def frontLike4 (label : String) : Bool := frontLike3 label || facingUser label

/-- A capture device as returned by `Html5Qrcode.getCameras()`. -/
structure Dev where
  id : String
  label : String
deriving DecidableEq

/-- `getFrontCamera` (QrScanner.jsx lines 380-401): throws a wrapped error
on an empty device list, otherwise returns the id of the first device whose
label matches the front-camera pattern, else the id of the first device. -/
def getFrontCamera (devices : List Dev) : Except String String :=
  match devices with
  | [] => Except.error "Camera access failed: No cameras found on this device"
  | d :: rest =>
    match (d :: rest).find? (fun x => frontLike4 x.label) with
    | some f => Except.ok f.id
    | none => Except.ok d.id

/-- The caller's guard `if (!frontCameraId) throw new Error('Front camera
not available')` (QrScanner.jsx lines 523-525): a string is falsy in JS
exactly when it is empty. -/
def frontCameraFalsy (id : String) : Bool := id == ""

/-- `populateCameras` device selection (part_001 lines 13-28): when the
current `activeId` is falsy and the list is non-empty, pick the first
label matching `/front|user|selfie/i`, falling back (through JS `||` on a
possibly-falsy id) to the first device; otherwise keep `activeId`. -/
def populateCameras (activeId : Option String) (devices : List Dev) : Option String :=
  if (activeId.getD "") == "" then
    match devices with
    | [] => activeId
    | d :: rest =>
      let cand : String :=
        match (d :: rest).find? (fun x => frontLike3 x.label) with
        | some f => f.id
        | none => ""
      some (if cand == "" then d.id else cand)
  else activeId

/-! ### PartOne `start` with over-constraint fallback (part_001 lines 30-61) -/

namespace PartOne

end PartOne

/-! ### The stop routines as functions of the engine outcome (C3, C5) -/

/-- Result of a stop routine that has no stopping flag: final
`scanningRef`, surfaced error, engine calls issued in order. -/
structure StopRes where
  scanningR : Bool
  surfaced : Option String
  calls : List ECall
deriving DecidableEq

/-- Result of a stop routine with a stopping flag. -/
structure StopRes2 where
  scanningR : Bool
  stoppingR : Bool
  surfaced : Option String
  calls : List ECall
deriving DecidableEq

namespace PartOne

/-- PartOne `stop` (part_001 lines 74-87): query `getState`; only when the
engine reports scanning or paused, issue `stop()` then `clear()` and clear
`scanningRef` afterwards; a rejection is caught and surfaced via
`setError`, leaving `scanningRef` as it was. `stopFail`/`clearFail` carry
the rejection message of the respective engine call, `none` = success. -/
def stop (reported : EngState) (scanningR : Bool)
    (stopFail clearFail : Option String) : StopRes :=
  if engineActive reported then
    match stopFail with
    | some m =>
      { scanningR := scanningR, surfaced := some ("Failed to stop scanner: " ++ m),
        calls := [ECall.engineStop] }
    | none =>
      match clearFail with
      | some m =>
        { scanningR := scanningR, surfaced := some ("Failed to stop scanner: " ++ m),
          calls := [ECall.engineStop, ECall.engineClear] }
      | none =>
        { scanningR := false, surfaced := none,
          calls := [ECall.engineStop, ECall.engineClear] }
  else
    { scanningR := scanningR, surfaced := none, calls := [] }

end PartOne

namespace OG

/-- OG `stopScanning` (QrScanner.jsx lines 121-138): guard on
`!scanningRef.current`; stop/clear only when the engine reports
scanning/paused; `scanningRef.current = false` and `setIsScanning(false)`
run inside the `try` after the engine calls, so a rejection caught by the
`catch` leaves `scanningRef` set; the error is surfaced via `setError`.
There is no `finally` and no stopping flag. -/
def stopRun (reported : EngState) (scanningR : Bool)
    (stopFail clearFail : Option String) : StopRes :=
  if !scanningR then
    { scanningR := scanningR, surfaced := none, calls := [] }
  else if engineActive reported then
    match stopFail with
    | some m =>
      { scanningR := true, surfaced := some ("Failed to stop scanner: " ++ m),
        calls := [ECall.engineStop] }
    | none =>
      match clearFail with
      | some m =>
        { scanningR := true, surfaced := some ("Failed to stop scanner: " ++ m),
          calls := [ECall.engineStop, ECall.engineClear] }
      | none =>
        { scanningR := false, surfaced := none,
          calls := [ECall.engineStop, ECall.engineClear] }
  else
    { scanningR := false, surfaced := none, calls := [] }

end OG

namespace CheckIn

/-- `CheckInQRScan.stopScanning` (QrScanner.jsx lines 406-450): guard on
`stoppingRef.current`; otherwise set `stoppingRef` and clear `scanningRef`
before any engine call; stop/clear only when the engine reports
scanning/paused; the `catch` body is empty (the `setError` call is
commented out), so engine rejections are swallowed; the `finally` always
resets `stoppingRef`. -/
def stopRun (reported : EngState) (scanningR stoppingR _mounted : Bool)
    (stopFail _clearFail : Option String) : StopRes2 :=
  if stoppingR then
    { scanningR := scanningR, stoppingR := true, surfaced := none, calls := [] }
  else if engineActive reported then
    match stopFail with
    | some _ =>
      { scanningR := false, stoppingR := false, surfaced := none,
        calls := [ECall.engineStop] }
    | none =>
      { scanningR := false, stoppingR := false, surfaced := none,
        calls := [ECall.engineStop, ECall.engineClear] }
  else
    { scanningR := false, stoppingR := false, surfaced := none, calls := [] }

end CheckIn

namespace Guarded

/-- Guarded `QrScanner.stopScanning` (QrScanner.jsx lines 836-880): same
stopping-flag structure as `CheckIn.stopRun`, but the `catch` surfaces the
error via `setError` when the component is still mounted. -/
def stopRun (reported : EngState) (scanningR stoppingR mounted : Bool)
    (stopFail clearFail : Option String) : StopRes2 :=
  if stoppingR then
    { scanningR := scanningR, stoppingR := true, surfaced := none, calls := [] }
  else if engineActive reported then
    match stopFail with
    | some m =>
      { scanningR := false, stoppingR := false,
        surfaced := if mounted then some ("Failed to stop scanner: " ++ m) else none,
        calls := [ECall.engineStop] }
    | none =>
      match clearFail with
      | some m =>
        { scanningR := false, stoppingR := false,
          surfaced := if mounted then some ("Failed to stop scanner: " ++ m) else none,
          calls := [ECall.engineStop, ECall.engineClear] }
      | none =>
        { scanningR := false, stoppingR := false, surfaced := none,
          calls := [ECall.engineStop, ECall.engineClear] }
  else
    { scanningR := false, stoppingR := false, surfaced := none, calls := [] }

end Guarded

/-! ### Small-step semantics of `CheckInQRScan` (also the guarded
`QrScanner` variant, whose `startScanning`/`stopScanning`/cleanup have the
same guard and flag structure).

A `start()` request runs `startScanning`'s synchronous prefix (guard check,
set `initializingRef`) and parks a continuation at the `getFrontCamera`
await (`nCam`).  When that await resolves the continuation either returns
early (engine already reports scanning) or issues `Html5Qrcode.start` and
parks at that await (`nEng`).  A `stop()` request runs `stopScanning`'s
synchronous prefix; when the engine reports scanning/paused it issues the
engine stop and parks at that await (`nStop`); the resolved stop issues the
clear and parks at that await (`nClear`).  `restart()` is a `stop()`
followed by a later `start()` through the same entry points, so it is
subsumed by interleavings of these steps.

`unmatched` counts engine `start` calls that are live: it is incremented
when `Html5Qrcode.start` is issued, and decremented when that call resolves
with an error or when a matching engine `stop` call is issued.  The claimed
single-session invariant is `unmatched ≤ 1`. -/

namespace CheckIn

/-- Configuration of the cooperative event loop of `CheckInQRScan`. -/
structure Config where
  mounted : Bool
  scanningR : Bool
  initializingR : Bool
  stoppingR : Bool
  reported : EngState
  nCam : Nat
  nEng : Nat
  nStop : Nat
  nClear : Nat
  startsIssued : Nat
  stopsIssued : Nat
  clearsIssued : Nat
  unmatched : Nat
deriving DecidableEq

/-- Synchronous prefix of `startScanning` (QrScanner.jsx lines 511-519):
dropped as a no-op when `scanningRef` or `initializingRef` is set or the
component is unmounted; otherwise sets `initializingRef` and suspends on
`getFrontCamera`. -/
def startScanning (c : Config) : Config :=
  if c.scanningR || c.initializingR || !c.mounted then c
  else { c with initializingR := true, nCam := c.nCam + 1 }

/-- Synchronous prefix of `stopScanning` (QrScanner.jsx lines 406-421):
dropped when `stoppingRef` is set; otherwise sets `stoppingRef`, clears
`scanningRef`, and issues the engine stop only when the engine reports
scanning/paused (else the whole body runs synchronously to the `finally`,
leaving `stoppingRef` clear). -/
def stopScanning (c : Config) : Config :=
  if c.stoppingR then c
  else if engineActive c.reported then
    { c with stoppingR := true, scanningR := false,
             nStop := c.nStop + 1, stopsIssued := c.stopsIssued + 1,
             unmatched := c.unmatched - 1 }
  else { c with scanningR := false }

/-- The unmount cleanup (QrScanner.jsx lines 613-624): clear `mountedRef`
and `initializingRef`, then call `stopScanning` when `scanningRef` is set
(its rejection is swallowed by `.catch`). -/
def unmountCleanup (c : Config) : Config :=
  if c.scanningR then
    stopScanning { c with mounted := false, initializingR := false }
  else { c with mounted := false, initializingR := false }

/-- One step of the event loop: a new `start()`/`stop()` request, the
unmount cleanup, or the resolution (successful or failed) of one pending
awaited operation.  The engine's reported state changes exactly when the
corresponding engine operation resolves. -/
inductive Step : Config → Config → Prop
  | startReq (c : Config) : Step c (startScanning c)
  | stopReq (c : Config) : Step c (stopScanning c)
  | unmount (c : Config) : Step c (unmountCleanup c)
  | camOk (c : Config) (h : 0 < c.nCam) :
      Step c (if c.reported = EngState.scanning
        then { c with nCam := c.nCam - 1, initializingR := false }
        else { c with nCam := c.nCam - 1, nEng := c.nEng + 1,
                      startsIssued := c.startsIssued + 1,
                      unmatched := c.unmatched + 1 })
  | camErr (c : Config) (h : 0 < c.nCam) :
      Step c { c with nCam := c.nCam - 1, scanningR := false, initializingR := false }
  | engOk (c : Config) (h : 0 < c.nEng) :
      Step c { c with nEng := c.nEng - 1, reported := EngState.scanning,
                      scanningR := true, initializingR := false }
  | engErr (c : Config) (h : 0 < c.nEng) :
      Step c { c with nEng := c.nEng - 1, scanningR := false,
                      initializingR := false, unmatched := c.unmatched - 1 }
  | stopOk (c : Config) (h : 0 < c.nStop) :
      Step c { c with nStop := c.nStop - 1, reported := EngState.notStarted,
                      nClear := c.nClear + 1, clearsIssued := c.clearsIssued + 1 }
  | stopErr (c : Config) (h : 0 < c.nStop) :
      Step c { c with nStop := c.nStop - 1, stoppingR := false }
  | clearDone (c : Config) (h : 0 < c.nClear) :
      Step c { c with nClear := c.nClear - 1, stoppingR := false }

/-- State after mount: refs initialised, engine not started. -/
def init : Config :=
  { mounted := true, scanningR := false, initializingR := false, stoppingR := false,
    reported := EngState.notStarted, nCam := 0, nEng := 0, nStop := 0, nClear := 0,
    startsIssued := 0, stopsIssued := 0, clearsIssued := 0, unmatched := 0 }

/-- Reachable configurations. -/
def Reach (c : Config) : Prop := Relation.ReflTransGen Step init c

/-- Inductive invariant of the event loop.  Its first conjunct is the
single-session property; the rest ties the guard flags to the pending
continuations and the engine state. -/
def Inv (c : Config) : Prop :=
  c.unmatched ≤ 1 ∧
  c.nCam + c.nEng ≤ 1 ∧
  (c.stoppingR = true → c.nStop + c.nClear = 1) ∧
  (c.stoppingR = false → c.nStop + c.nClear = 0) ∧
  (c.nEng = 1 → c.unmatched = 1 ∧ c.reported = EngState.notStarted) ∧
  (c.nStop = 1 → c.unmatched = 0 ∧ c.reported = EngState.scanning ∧ c.scanningR = false) ∧
  (c.reported = EngState.notStarted → c.nEng = 0 → c.unmatched = 0) ∧
  c.reported ≠ EngState.paused ∧
  (c.nCam + c.nEng = 1 → c.initializingR = true ∨ c.mounted = false) ∧
  (c.scanningR = true → c.nCam = 0 ∧ c.nEng = 0 ∧ c.reported = EngState.scanning)

/-- The restriction of `Step` to continuations in which every issued
engine stop resolves successfully: the `stopErr` resolution is omitted
(the clear resolution keeps its step, since its swallowed failure and its
success have the same effect on the modelled state).  The amended teardown
claim scopes its one-stop/clear-pair guarantee to such continuations;
under the full `Step` relation that guarantee fails, because a rejected
teardown stop resets `stoppingRef` in the `finally` while the engine keeps
reporting scanning, so a later stop request passes the guard and issues a
second engine stop. -/
inductive StepOk : Config → Config → Prop
  | startReq (c : Config) : StepOk c (startScanning c)
  | stopReq (c : Config) : StepOk c (stopScanning c)
  | unmount (c : Config) : StepOk c (unmountCleanup c)
  | camOk (c : Config) (h : 0 < c.nCam) :
      StepOk c (if c.reported = EngState.scanning
        then { c with nCam := c.nCam - 1, initializingR := false }
        else { c with nCam := c.nCam - 1, nEng := c.nEng + 1,
                      startsIssued := c.startsIssued + 1,
                      unmatched := c.unmatched + 1 })
  | camErr (c : Config) (h : 0 < c.nCam) :
      StepOk c { c with nCam := c.nCam - 1, scanningR := false, initializingR := false }
  | engOk (c : Config) (h : 0 < c.nEng) :
      StepOk c { c with nEng := c.nEng - 1, reported := EngState.scanning,
                        scanningR := true, initializingR := false }
  | engErr (c : Config) (h : 0 < c.nEng) :
      StepOk c { c with nEng := c.nEng - 1, scanningR := false,
                        initializingR := false, unmatched := c.unmatched - 1 }
  | stopOk (c : Config) (h : 0 < c.nStop) :
      StepOk c { c with nStop := c.nStop - 1, reported := EngState.notStarted,
                        nClear := c.nClear + 1, clearsIssued := c.clearsIssued + 1 }
  | clearDone (c : Config) (h : 0 < c.nClear) :
      StepOk c { c with nClear := c.nClear - 1, stoppingR := false }

/-- Invariant of every configuration after an unmount that found the
controller scanning: `S` is the final count of issued engine stops, `K`
bounds issued clears. -/
def Post (S K : Nat) (x : Config) : Prop :=
  x.mounted = false ∧ x.initializingR = false ∧ x.scanningR = false ∧
  x.nCam = 0 ∧ x.nEng = 0 ∧
  x.reported ≠ EngState.paused ∧
  (x.reported = EngState.scanning → x.stoppingR = true) ∧
  (x.stoppingR = true → x.nStop + x.nClear = 1) ∧
  (x.stoppingR = false → x.nStop + x.nClear = 0) ∧
  x.stopsIssued = S ∧
  x.clearsIssued + x.nStop = K ∧
  (x.nClear = 1 → x.reported = EngState.notStarted)

/-- `handleQrDecode` (QrScanner.jsx lines 455-506) as a function of the
decoded text and the current configuration: on extraction failure it shows
the invalid-code toast and returns before touching the scanner; on success
it submits the code to `verifyCode` and runs `stopScanning`'s synchronous
prefix (`stopOnScan` is `true`).  Result: new configuration, submitted
code, toast message. -/
def handleQrDecode (text : String) (c : Config) :
    Config × Option String × Option String :=
  match extractFourDigit text with
  | none => (c, none, some invalidToast)
  | some code => (stopScanning c, some code, none)

/-- A reachable configuration in which the controller is scanning: one
engine start issued and live. -/
def cMidScan : Config :=
  { mounted := true, scanningR := true, initializingR := false, stoppingR := false,
    reported := EngState.scanning, nCam := 0, nEng := 0, nStop := 0, nClear := 0,
    startsIssued := 1, stopsIssued := 0, clearsIssued := 0, unmatched := 1 }

/-- A reachable configuration in which a stop is in flight: the engine stop
has been issued and is awaited. -/
def cMidStop : Config :=
  { mounted := true, scanningR := false, initializingR := false, stoppingR := true,
    reported := EngState.scanning, nCam := 0, nEng := 0, nStop := 1, nClear := 0,
    startsIssued := 1, stopsIssued := 1, clearsIssued := 0, unmatched := 0 }

/-- Configuration after a teardown-while-scanning whose issued engine stop
rejected: the rejection is caught by the empty `catch`, the `finally`
resets `stoppingRef`, the engine still reports scanning, and the component
is unmounted with the decode callback still registered. -/
def cAfterStopErr : Config :=
  { mounted := false, scanningR := false, initializingR := false, stoppingR := false,
    reported := EngState.scanning, nCam := 0, nEng := 0, nStop := 0, nClear := 0,
    startsIssued := 1, stopsIssued := 1, clearsIssued := 0, unmatched := 0 }

end CheckIn

/-! ### Small-step semantics of the OG `QrScanner` variant (lines 8-309).

Same atomic-block cutting as for `CheckIn`, but this variant has no
`initializingRef`, no `stoppingRef` and no `mountedRef`: `startScanning`
is guarded only by `scanningRef`, and `stopScanning` is guarded only by
`!scanningRef` — and `scanningRef` is cleared only after the engine
stop/clear awaits complete (line 132). -/

namespace OG

/-- Configuration of the OG variant's event loop. -/
structure Config where
  scanningR : Bool
  reported : EngState
  nCam : Nat
  nEng : Nat
  nStop : Nat
  nClear : Nat
  stopsIssued : Nat
  clearsIssued : Nat
deriving DecidableEq

/-- Synchronous prefix of OG `startScanning` (lines 79-88): guarded only by
`scanningRef`; suspends on `getFrontCamera`. -/
def startScanning (c : Config) : Config :=
  if c.scanningR then c else { c with nCam := c.nCam + 1 }

/-- Synchronous prefix of OG `stopScanning` (lines 121-130): guarded only
by `!scanningRef`; when the engine reports scanning/paused it issues the
engine stop and suspends, leaving `scanningRef` still set; otherwise the
body completes synchronously, clearing `scanningRef` (line 132). -/
def stopScanning (c : Config) : Config :=
  if !c.scanningR then c
  else if engineActive c.reported then
    { c with nStop := c.nStop + 1, stopsIssued := c.stopsIssued + 1 }
  else { c with scanningR := false }

/-- One step of the OG event loop. -/
inductive Step : Config → Config → Prop
  | startReq (c : Config) : Step c (startScanning c)
  | stopReq (c : Config) : Step c (stopScanning c)
  | camOk (c : Config) (h : 0 < c.nCam) :
      Step c { c with nCam := c.nCam - 1, nEng := c.nEng + 1 }
  | camErr (c : Config) (h : 0 < c.nCam) :
      Step c { c with nCam := c.nCam - 1, scanningR := false }
  | engOk (c : Config) (h : 0 < c.nEng) :
      Step c { c with nEng := c.nEng - 1, scanningR := true,
                      reported := EngState.scanning }
  | engErr (c : Config) (h : 0 < c.nEng) :
      Step c { c with nEng := c.nEng - 1, scanningR := false }
  | stopOk (c : Config) (h : 0 < c.nStop) :
      Step c { c with nStop := c.nStop - 1, reported := EngState.notStarted,
                      nClear := c.nClear + 1, clearsIssued := c.clearsIssued + 1 }
  | stopErr (c : Config) (h : 0 < c.nStop) :
      Step c { c with nStop := c.nStop - 1 }
  | clearDone (c : Config) (h : 0 < c.nClear) :
      Step c { c with nClear := c.nClear - 1, scanningR := false }

/-- State after mount. -/
def init : Config :=
  { scanningR := false, reported := EngState.notStarted,
    nCam := 0, nEng := 0, nStop := 0, nClear := 0,
    stopsIssued := 0, clearsIssued := 0 }

/-- Reachable configurations of the OG variant. -/
def Reach (c : Config) : Prop := Relation.ReflTransGen Step init c

/-- Reachable configuration of the OG variant in which a first `stop()` has
issued the engine stop and is awaiting it: `scanningRef` is still `true`,
so a second `stop()` passes the guard. -/
def ogMid : Config :=
  { scanningR := true, reported := EngState.scanning,
    nCam := 0, nEng := 0, nStop := 1, nClear := 0,
    stopsIssued := 1, clearsIssued := 0 }

end OG

/-! ## Theorems -/

theorem toList_mk (l : List Char) : (String.mk l).toList = l := rfl

theorem length_mk (l : List Char) : (String.mk l).length = l.length := rfl

/-- A digit prepended to a list starting with four digits still starts with
four digits. -/
theorem digits4_of_tail (c : Char) (rest : List Char) (hc : c.isDigit = true)
    (h : digits4 rest = true) : digits4 (c :: rest) = true := by
  rcases rest with _ | ⟨a, _ | ⟨b, _ | ⟨d, _ | ⟨e, t⟩⟩⟩⟩ <;>
    simp_all [digits4]

/-- The 4-element prefix taken at a `digits4` match has length 4 and is all
digits. -/
theorem take4_shape (c a b d : Char) (t : List Char)
    (hd : digits4 (c :: a :: b :: d :: t) = true) :
    ((c :: a :: b :: d :: t).take 4).length = 4 ∧
    ((c :: a :: b :: d :: t).take 4).all Char.isDigit = true := by
  have h4 : (c :: a :: b :: d :: t).take 4 = [c, a, b, d] := rfl
  rw [h4]
  simp [digits4] at hd
  simp [hd]

/-- Text with four consecutive digits somewhere always has an unbounded
match. -/
theorem findUnbounded_isSome : ∀ l : List Char, hasFour l = true →
    ∃ m, findUnbounded l = some m := by
  intro l
  induction l with
  | nil => intro h; simp [hasFour] at h
  | cons c rest ih =>
    intro h
    by_cases hd : digits4 (c :: rest) = true
    · exact ⟨(c :: rest).take 4, by rw [findUnbounded]; simp [hd]⟩
    · have hd2 : digits4 (c :: rest) = false := by simpa using hd
      rw [hasFour, hd2] at h
      simp at h
      obtain ⟨m, hm⟩ := ih h
      exact ⟨m, by rw [findUnbounded]; simp [hd2, hm]⟩

/-- An unbounded match is always 4 digits. -/
theorem findUnbounded_shape : ∀ (l m : List Char), findUnbounded l = some m →
    m.length = 4 ∧ m.all Char.isDigit = true := by
  intro l
  induction l with
  | nil => intro m h; simp [findUnbounded] at h
  | cons c rest ih =>
    intro m h
    by_cases hd : digits4 (c :: rest) = true
    · rw [findUnbounded] at h
      simp [hd] at h
      rcases rest with _ | ⟨a, _ | ⟨b, _ | ⟨d, t⟩⟩⟩ <;>
        first
          | (rw [← h]; exact take4_shape c a b d t hd)
          | (exact absurd hd (by simp [digits4]))
    · have hd2 : digits4 (c :: rest) = false := by simpa using hd
      rw [findUnbounded] at h
      simp [hd2] at h
      exact ih m h

/-- A bounded match is always 4 digits. -/
theorem findBoundedAux_shape : ∀ (l : List Char) (p : Bool) (m : List Char),
    findBoundedAux p l = some m → m.length = 4 ∧ m.all Char.isDigit = true := by
  intro l
  induction l with
  | nil => intro p m h; simp [findBoundedAux] at h
  | cons c rest ih =>
    intro p m h
    rw [findBoundedAux] at h
    by_cases hcond : (!p && digits4 (c :: rest) && boundaryAfter (c :: rest)) = true
    · have hd : digits4 (c :: rest) = true := by
        simp [Bool.and_eq_true] at hcond
        tauto
      simp [hcond] at h
      rcases rest with _ | ⟨a, _ | ⟨b, _ | ⟨d, t⟩⟩⟩ <;>
        first
          | (rw [← h]; exact take4_shape c a b d t hd)
          | (exact absurd hd (by simp [digits4]))
    · have hcond2 : (!p && digits4 (c :: rest) && boundaryAfter (c :: rest)) = false := by
        simpa using hcond
      simp [hcond2] at h
      exact ih (isWordChar c) m h

/-- The unbounded-match scan agrees with the spec-side description: it
returns the first four digits of the earliest digit run of length at least
4.  Second conjunct: the same holds for the scan started just after a digit
that does not begin a 4-digit window. -/
theorem findUnbounded_eq_firstFour : ∀ l : List Char,
    findUnbounded l = firstFourAux false l ∧
    (digits4 l = false → findUnbounded l = firstFourAux true l) := by
  intro l
  induction l with
  | nil => exact ⟨rfl, fun _ => rfl⟩
  | cons c rest ih =>
    have key : digits4 (c :: rest) = false →
        findUnbounded rest = firstFourAux c.isDigit rest := by
      intro hd2
      cases hcd : c.isDigit
      · exact ih.1
      · refine ih.2 ?_
        cases hdr : digits4 rest
        · rfl
        · exact absurd (digits4_of_tail c rest hcd hdr) (by simp [hd2])
    constructor
    · by_cases hd : digits4 (c :: rest) = true
      · rw [findUnbounded, firstFourAux]; simp [hd]
      · have hd2 : digits4 (c :: rest) = false := by simpa using hd
        rw [findUnbounded, firstFourAux]
        simp [hd2]
        exact key hd2
    · intro hd2
      rw [findUnbounded, firstFourAux]
      simp [hd2]
      exact key hd2

/-- Layer 1 of the extraction: the bounded match wins when it exists. -/
theorem extract_bounded (s : String) (m : List Char)
    (h : findBounded s.toList = some m) :
    extractFourDigit s = some (String.mk m) := by
  have h2 : findBounded s.data = some m := h
  simp [extractFourDigit, h2]

/-- Layer 2: with no bounded match, the unbounded match wins. -/
theorem extract_unbounded (s : String) (m : List Char)
    (hb : findBounded s.toList = none) (hu : findUnbounded s.toList = some m) :
    extractFourDigit s = some (String.mk m) := by
  have hb2 : findBounded s.data = none := hb
  have hu2 : findUnbounded s.data = some m := hu
  simp [extractFourDigit, hb2, hu2]

/-- Layer 3: with neither match, the exact-whole-string test decides. -/
theorem extract_neither (s : String)
    (hb : findBounded s.toList = none) (hu : findUnbounded s.toList = none) :
    extractFourDigit s = (if exact4 s.toList then some s else none) := by
  have hb2 : findBounded s.data = none := hb
  have hu2 : findUnbounded s.data = none := hu
  simp [extractFourDigit, hb2, hu2]

/-- The submitted code of `handleQrDecode` is exactly the extraction
result. -/
theorem handleQrDecode_code (text : String) (c : CheckIn.Config) :
    (CheckIn.handleQrDecode text c).2.1 = extractFourDigit text := by
  rcases h : extractFourDigit text with _ | code <;>
    simp [CheckIn.handleQrDecode, h]

/-- Claim C3: every stop routine first queries the engine state and issues
the engine stop followed by the engine clear, in that order, only when the
engine reports scanning or paused; a stop in the idle engine state issues
no engine calls.  Stated for PartOne `stop` (part_001 lines 74-87) and for
`CheckInQRScan.stopScanning` (QrScanner.jsx lines 406-450); the list of
issued calls is always a prefix of stop-then-clear. -/
theorem c3_stop_order :
    (∀ reported scanningR stopFail clearFail,
      ((PartOne.stop reported scanningR stopFail clearFail).calls = [] ∨
       (PartOne.stop reported scanningR stopFail clearFail).calls = [ECall.engineStop] ∨
       (PartOne.stop reported scanningR stopFail clearFail).calls =
         [ECall.engineStop, ECall.engineClear]) ∧
      ((PartOne.stop reported scanningR stopFail clearFail).calls ≠ [] ↔
        engineActive reported = true) ∧
      (stopFail = none → engineActive reported = true →
        (PartOne.stop reported scanningR stopFail clearFail).calls =
          [ECall.engineStop, ECall.engineClear]) ∧
      (reported = EngState.notStarted →
        (PartOne.stop reported scanningR stopFail clearFail).calls = [])) ∧
    (∀ reported sR stR mo stopFail clearFail,
      ((CheckIn.stopRun reported sR stR mo stopFail clearFail).calls ≠ [] ↔
        (stR = false ∧ engineActive reported = true)) ∧
      (stR = false → stopFail = none → engineActive reported = true →
        (CheckIn.stopRun reported sR stR mo stopFail clearFail).calls =
          [ECall.engineStop, ECall.engineClear]) ∧
      (reported = EngState.notStarted →
        (CheckIn.stopRun reported sR stR mo stopFail clearFail).calls = [])) := by
  constructor
  · intro reported scanningR stopFail clearFail
    cases reported <;> rcases stopFail with _ | m1 <;> rcases clearFail with _ | m2 <;>
      simp [PartOne.stop, engineActive]
  · intro reported sR stR mo stopFail clearFail
    cases reported <;> cases stR <;> rcases stopFail with _ | m1 <;>
      rcases clearFail with _ | m2 <;>
      simp [CheckIn.stopRun, engineActive]

/-- Witness for C3: a stop in the idle engine state issues nothing; a stop
in the scanning state with a cooperating engine issues stop then clear. -/
theorem c3_witness :
    (PartOne.stop EngState.notStarted true none none).calls = [] ∧
    (PartOne.stop EngState.scanning true none none).calls =
      [ECall.engineStop, ECall.engineClear] :=
  ⟨(c3_stop_order.1 EngState.notStarted true none none).2.2.2 rfl,
   (c3_stop_order.1 EngState.scanning true none none).2.2.1 rfl rfl⟩

/-- Counterexample for C5: in the OG `stopScanning` (QrScanner.jsx lines
121-138) there is no `finally`, so a rejected engine stop leaves
`scanningRef` set (the controller does not transition to Idle); and in
`CheckInQRScan.stopScanning` (lines 442-449) the error is swallowed, not
surfaced. -/
theorem c5_counterexample :
    (OG.stopRun EngState.scanning true (some "boom") none).scanningR = true ∧
    (OG.stopRun EngState.scanning true (some "boom") none).calls = [ECall.engineStop] ∧
    (CheckIn.stopRun EngState.scanning true false true (some "boom") none).surfaced
      = none ∧
    (CheckIn.stopRun EngState.scanning true false true (some "boom") none).scanningR
      = false :=
  ⟨rfl, rfl, rfl, rfl⟩

/-- Claim C5 (amended): in the stopping-flag variants (`CheckInQRScan` and
the guarded `QrScanner`), every executed stop clears the scanning and
stopping flags even when the engine stop or clear rejects — `scanningRef`
is cleared before the engine calls and `stoppingRef` is reset in the
`finally` — so a stop failure never wedges the state machine; the guarded
variant surfaces the error to the collaborator while `CheckInQRScan`
swallows it; the OG variant has no `finally` and a rejected stop leaves
`scanningRef` set. -/
theorem c5_amended_cleanup :
    (∀ reported sR mo stopFail clearFail,
      (CheckIn.stopRun reported sR false mo stopFail clearFail).scanningR = false ∧
      (CheckIn.stopRun reported sR false mo stopFail clearFail).stoppingR = false) ∧
    (∀ reported sR stopFail clearFail,
      (Guarded.stopRun reported sR false true stopFail clearFail).scanningR = false ∧
      (Guarded.stopRun reported sR false true stopFail clearFail).stoppingR = false) ∧
    (∀ reported sR m clearFail, engineActive reported = true →
      (Guarded.stopRun reported sR false true (some m) clearFail).surfaced =
        some ("Failed to stop scanner: " ++ m)) ∧
    (∀ reported m clearFail, engineActive reported = true →
      (OG.stopRun reported true (some m) clearFail).scanningR = true) := by
  refine ⟨?_, ?_, ?_, ?_⟩
  · intro reported sR mo stopFail clearFail
    cases reported <;> rcases stopFail with _ | m1 <;>
      simp [CheckIn.stopRun, engineActive]
  · intro reported sR stopFail clearFail
    cases reported <;> rcases stopFail with _ | m1 <;>
      rcases clearFail with _ | m2 <;> simp [Guarded.stopRun, engineActive]
  · intro reported sR m clearFail hact
    cases reported <;> simp [engineActive] at hact <;>
      simp [Guarded.stopRun, engineActive]
  · intro reported m clearFail hact
    cases reported <;> simp [engineActive] at hact <;>
      simp [OG.stopRun, engineActive]

/-- Witness for C5 (amended): the CheckIn stop clears its flags even on a
rejected engine stop, and the guarded variant surfaces the message. -/
theorem c5_witness :
    (CheckIn.stopRun EngState.scanning true false true (some "boom") none).scanningR
      = false ∧
    (Guarded.stopRun EngState.scanning true false true (some "boom") none).surfaced =
      some ("Failed to stop scanner: " ++ "boom") :=
  ⟨(c5_amended_cleanup.1 EngState.scanning true true (some "boom") none).1,
   c5_amended_cleanup.2.2.1 EngState.scanning true "boom" none rfl⟩

/-- Counterexample for C8: `populateCameras` keeps a previously selected id
even when it is no longer present in the device list, whereas the claim
requires falling through to the label match (which would give `"1"`). -/
theorem c8_counterexample :
    populateCameras (some "ghost") [Dev.mk "1" "Front Camera"] = some "ghost" ∧
    (some "ghost" : Option String) ≠ some "1" :=
  ⟨rfl, by decide⟩

/-- Claim C8 (amended): `populateCameras` keeps a previously selected
(truthy) id unconditionally — it never checks that the id is still present;
only when no id is selected does it pick the first device whose label
matches `/front|user|selfie/i`, else the first device.  `getFrontCamera`
ignores any previous selection and always picks the first
`/front|user|selfie|facing.*user/i` label, else the first device.  On the
claim's concrete lists both selectors return `"2"` and `"1"` as claimed. -/
theorem c8_amended_selection :
    (∀ prev devices, prev ≠ "" → populateCameras (some prev) devices = some prev) ∧
    (∀ d rest f, (d :: rest).find? (fun x => frontLike3 x.label) = some f →
      f.id ≠ "" → populateCameras none (d :: rest) = some f.id) ∧
    (∀ d rest, (d :: rest).find? (fun x => frontLike3 x.label) = none →
      populateCameras none (d :: rest) = some d.id) ∧
    getFrontCamera [Dev.mk "1" "Integrated Camera", Dev.mk "2" "Front Facing Camera"] =
      Except.ok "2" ∧
    getFrontCamera [Dev.mk "1" "Integrated Camera"] = Except.ok "1" ∧
    populateCameras none [Dev.mk "1" "Integrated Camera", Dev.mk "2" "Front Facing Camera"]
      = some "2" ∧
    populateCameras none [Dev.mk "1" "Integrated Camera"] = some "1" := by
  refine ⟨?_, ?_, ?_, rfl, rfl, rfl, rfl⟩
  · intro prev devices hprev
    have hb : (prev == "") = false := by
      simpa using hprev
    simp [populateCameras, hb]
  · intro d rest f hf hfid
    have hb : (f.id == "") = false := by simpa using hfid
    simp [populateCameras, hf, hb]
  · intro d rest hf
    simp [populateCameras, hf]

/-- Witness for C8 (amended): a stale selection is kept; a fresh selection
matches the front label. -/
theorem c8_witness :
    populateCameras (some "keep") [] = some "keep" ∧
    populateCameras none [Dev.mk "1" "Front Facing Camera"] = some "1" :=
  ⟨c8_amended_selection.1 "keep" [] (by decide),
   c8_amended_selection.2.1 (Dev.mk "1" "Front Facing Camera") []
     (Dev.mk "1" "Front Facing Camera") (by decide) (by decide)⟩

/-- Counterexample for C9: a platform device id may be the empty string (a
falsy JS value); `getFrontCamera` then resolves to that id and the caller's
`if (!frontCameraId)` branch fires, so the branch is not unreachable. -/
theorem c9_counterexample :
    getFrontCamera [Dev.mk "" "Front Camera"] = Except.ok "" ∧
    frontCameraFalsy "" = true :=
  ⟨rfl, rfl⟩

/-- Claim C9 (amended): `getFrontCamera` never resolves to null: on an
empty list (or a failed enumeration) it throws with the cause wrapped in a
`Camera access failed` message, otherwise it returns the id of one of the
enumerated devices; consequently the caller's `Front camera not available`
branch is unreachable whenever every enumerated device id is non-empty (an
empty-string id, being falsy, would still trigger it). -/
theorem c9_amended_total (devices : List Dev) :
    (devices = [] → getFrontCamera devices =
      Except.error "Camera access failed: No cameras found on this device") ∧
    (devices ≠ [] → ∃ d, d ∈ devices ∧ getFrontCamera devices = Except.ok d.id) ∧
    (devices ≠ [] → (∀ d, d ∈ devices → d.id ≠ "") →
      ∀ r, getFrontCamera devices = Except.ok r → frontCameraFalsy r = false) := by
  refine ⟨?_, ?_, ?_⟩
  · intro h; subst h; rfl
  · intro hne
    rcases devices with _ | ⟨a, rest⟩
    · exact absurd rfl hne
    · rcases hf : (a :: rest).find? (fun x => frontLike4 x.label) with _ | f
      · exact ⟨a, List.mem_cons_self a rest, by rw [getFrontCamera, hf]⟩
      · exact ⟨f, List.mem_of_find?_eq_some hf, by rw [getFrontCamera, hf]⟩
  · intro hne hids r hr
    rcases devices with _ | ⟨a, rest⟩
    · exact absurd rfl hne
    · rw [getFrontCamera] at hr
      rcases hf : (a :: rest).find? (fun x => frontLike4 x.label) with _ | f <;>
        rw [hf] at hr
      · have hra : a.id = r := by
          have := Except.ok.inj hr
          exact this
        have ha : a.id ≠ "" := hids a (List.mem_cons_self a rest)
        rw [← hra]
        simpa [frontCameraFalsy] using ha
      · have hrf : f.id = r := by
          have := Except.ok.inj hr
          exact this
        have ha : f.id ≠ "" := hids f (List.mem_of_find?_eq_some hf)
        rw [← hrf]
        simpa [frontCameraFalsy] using ha

/-- Witness for C9 (amended): the empty list throws the wrapped message; a
non-empty list yields a member id. -/
theorem c9_witness :
    (getFrontCamera [] =
      Except.error "Camera access failed: No cameras found on this device") ∧
    (∃ d, d ∈ [Dev.mk "1" "Front Facing Camera"] ∧
      getFrontCamera [Dev.mk "1" "Front Facing Camera"] = Except.ok d.id) :=
  ⟨(c9_amended_total []).1 rfl,
   (c9_amended_total [Dev.mk "1" "Front Facing Camera"]).2.1 (by simp)⟩

/-- Claim C6: `handleQrDecode` extracts a 4-digit code by trying, in order,
the word-boundary-bounded match, the unbounded substring match, and the
exact-whole-string match; when all three fail the decode is rejected with
the invalid-code toast, nothing is submitted, and the configuration is
unchanged — the controller stays in its scanning state and no engine stop
or clear is issued. -/
theorem c6_layered_extraction :
    (∀ (s : String) (m : List Char), findBounded s.toList = some m →
      extractFourDigit s = some (String.mk m)) ∧
    (∀ (s : String) (m : List Char), findBounded s.toList = none →
      findUnbounded s.toList = some m → extractFourDigit s = some (String.mk m)) ∧
    (∀ s : String, findBounded s.toList = none → findUnbounded s.toList = none →
      extractFourDigit s = (if exact4 s.toList then some s else none)) ∧
    (∀ (text : String) (c : CheckIn.Config), extractFourDigit text = none →
      CheckIn.handleQrDecode text c = (c, none, some invalidToast)) := by
  refine ⟨extract_bounded, extract_unbounded, extract_neither, ?_⟩
  intro text c h
  simp [CheckIn.handleQrDecode, h]

/-- Witness for C6: the text `"abc"` fails all three layers and is
rejected; the configuration (a scanning one) is returned unchanged with no
engine call issued and nothing submitted. -/
theorem c6_witness :
    extractFourDigit "abc" = none ∧
    CheckIn.handleQrDecode "abc" CheckIn.cMidScan =
      (CheckIn.cMidScan, none, some invalidToast) := by
  have h : extractFourDigit "abc" = none := by decide
  exact ⟨h, c6_layered_extraction.2.2.2 "abc" CheckIn.cMidScan h⟩

/-- Claim C10: any decoded text containing at least 4 consecutive digits is
never rejected — the extraction yields a 4-digit code; and when the bounded
match fails, the unbounded fallback extracts exactly the first 4 digits of
the earliest digit run of length at least 4, and that code is what
`handleQrDecode` submits for verification. -/
theorem c10_unbounded_fallback (s : String) (h : hasFour s.toList = true) :
    (∃ code, extractFourDigit s = some code ∧ code.length = 4 ∧
      code.toList.all Char.isDigit = true) ∧
    (findBounded s.toList = none →
      extractFourDigit s = Option.map String.mk (firstFourOfEarliestRun s.toList) ∧
      ∀ c : CheckIn.Config, (CheckIn.handleQrDecode s c).2.1 =
        Option.map String.mk (firstFourOfEarliestRun s.toList)) := by
  obtain ⟨m, hm⟩ := findUnbounded_isSome s.toList h
  obtain ⟨hlen, hdig⟩ := findUnbounded_shape s.toList m hm
  constructor
  · rcases hb : findBounded s.toList with _ | mb
    · refine ⟨String.mk m, extract_unbounded s m hb hm, ?_, ?_⟩
      · rw [length_mk]; exact hlen
      · rw [toList_mk]; exact hdig
    · obtain ⟨hlen2, hdig2⟩ := findBoundedAux_shape s.toList false mb hb
      refine ⟨String.mk mb, extract_bounded s mb hb, ?_, ?_⟩
      · rw [length_mk]; exact hlen2
      · rw [toList_mk]; exact hdig2
  · intro hb
    have he : extractFourDigit s = some (String.mk m) := extract_unbounded s m hb hm
    have hf : firstFourOfEarliestRun s.toList = some m := by
      rw [firstFourOfEarliestRun, ← (findUnbounded_eq_firstFour s.toList).1, hm]
    refine ⟨?_, ?_⟩
    · rw [he, hf]; rfl
    · intro c; rw [handleQrDecode_code, he, hf]; rfl

/-- Witness for C10: `"A12345"` has a 5-digit run, the bounded match fails
(no word boundary inside the run), and the fallback extracts the first 4
digits `"1234"` of the earliest run. -/
theorem c10_witness :
    hasFour ("A12345".toList) = true ∧
    findBounded ("A12345".toList) = none ∧
    extractFourDigit "A12345" =
      Option.map String.mk (firstFourOfEarliestRun ("A12345".toList)) ∧
    Option.map String.mk (firstFourOfEarliestRun ("A12345".toList)) = some "1234" := by
  have h1 : hasFour ("A12345".toList) = true := by decide
  have h2 : findBounded ("A12345".toList) = none := by decide
  exact ⟨h1, h2, ((c10_unbounded_fallback "A12345" h1).2 h2).1, by decide⟩


namespace CheckIn

/-- The initial configuration satisfies the invariant. -/
theorem inv_init : Inv init := by
  refine ⟨?_, ?_, ?_, ?_, ?_, ?_, ?_, ?_, ?_, ?_⟩ <;> simp [init, Inv]

/-- `startScanning` preserves the invariant. -/
theorem inv_startScanning (c : Config) (h : Inv c) : Inv (startScanning c) := by
  obtain ⟨hA, hB, hC1, hC2, hD, hE, hF, hG, hH, hI⟩ := h
  by_cases hg : (c.scanningR || c.initializingR || !c.mounted) = true
  · rw [startScanning, if_pos hg]
    exact ⟨hA, hB, hC1, hC2, hD, hE, hF, hG, hH, hI⟩
  · have hsp : (c.scanningR = false ∧ c.initializingR = false) ∧ c.mounted = true := by
      simpa using hg
    obtain ⟨⟨hs, hi⟩, hm⟩ := hsp
    rw [startScanning, if_neg hg]
    have hz : c.nCam + c.nEng = 0 := by
      by_contra hnz
      have h1 : c.nCam + c.nEng = 1 := by omega
      rcases hH h1 with h2 | h2
      · rw [hi] at h2; exact Bool.noConfusion h2
      · rw [hm] at h2; exact Bool.noConfusion h2
    refine ⟨hA, ?_, hC1, hC2, hD, hE, hF, hG, ?_, ?_⟩
    · show c.nCam + 1 + c.nEng ≤ 1
      omega
    · intro _
      exact Or.inl rfl
    · intro hsc
      have hx : c.scanningR = true := hsc
      rw [hs] at hx
      exact Bool.noConfusion hx

/-- `stopScanning` preserves the invariant. -/
theorem inv_stopScanning (c : Config) (h : Inv c) : Inv (stopScanning c) := by
  obtain ⟨hA, hB, hC1, hC2, hD, hE, hF, hG, hH, hI⟩ := h
  by_cases hst : c.stoppingR = true
  · rw [stopScanning, if_pos hst]
    exact ⟨hA, hB, hC1, hC2, hD, hE, hF, hG, hH, hI⟩
  · have hstf : c.stoppingR = false := by simpa using hst
    rw [stopScanning, if_neg hst]
    have hsum0 : c.nStop + c.nClear = 0 := hC2 hstf
    by_cases hact : engineActive c.reported = true
    · rw [if_pos hact]
      have hrep : c.reported = EngState.scanning := by
        rcases hrr : c.reported
        · rw [hrr] at hact; exact Bool.noConfusion hact
        · rfl
        · exact absurd hrr hG
      refine ⟨?_, hB, ?_, ?_, ?_, ?_, ?_, hG, hH, ?_⟩
      · show c.unmatched - 1 ≤ 1
        omega
      · intro _
        show c.nStop + 1 + c.nClear = 1
        omega
      · intro hc
        exact Bool.noConfusion hc
      · intro hne
        obtain ⟨_, hr⟩ := hD hne
        rw [hrep] at hr
        exact EngState.noConfusion hr
      · intro _
        refine ⟨?_, hrep, rfl⟩
        show c.unmatched - 1 = 0
        omega
      · intro hrr _
        exact absurd (hrep.symm.trans hrr) (by simp)
      · intro hsc
        exact Bool.noConfusion hsc
    · rw [if_neg hact]
      refine ⟨hA, hB, hC1, hC2, hD, ?_, hF, hG, hH, ?_⟩
      · intro hns
        obtain ⟨h1, h2, _⟩ := hE hns
        exact ⟨h1, h2, rfl⟩
      · intro hsc
        exact Bool.noConfusion hsc

/-- The unmount cleanup preserves the invariant. -/
theorem inv_unmount (c : Config) (h : Inv c) : Inv (unmountCleanup c) := by
  obtain ⟨hA, hB, hC1, hC2, hD, hE, hF, hG, hH, hI⟩ := h
  have h1 : Inv { c with mounted := false, initializingR := false } := by
    refine ⟨hA, hB, hC1, hC2, hD, hE, hF, hG, ?_, hI⟩
    intro _
    exact Or.inr rfl
  by_cases hs : c.scanningR = true
  · rw [unmountCleanup, if_pos hs]
    exact inv_stopScanning _ h1
  · rw [unmountCleanup, if_neg hs]
    exact h1

/-- The camera-enumeration resolution preserves the invariant. -/
theorem inv_camOk (c : Config) (h0 : 0 < c.nCam) (h : Inv c) :
    Inv (if c.reported = EngState.scanning
      then { c with nCam := c.nCam - 1, initializingR := false }
      else { c with nCam := c.nCam - 1, nEng := c.nEng + 1,
                    startsIssued := c.startsIssued + 1,
                    unmatched := c.unmatched + 1 }) := by
  obtain ⟨hA, hB, hC1, hC2, hD, hE, hF, hG, hH, hI⟩ := h
  have hcam1 : c.nCam = 1 := by omega
  have heng0 : c.nEng = 0 := by omega
  by_cases hrep : c.reported = EngState.scanning
  · rw [if_pos hrep]
    refine ⟨hA, ?_, hC1, hC2, hD, hE, hF, hG, ?_, ?_⟩
    · show c.nCam - 1 + c.nEng ≤ 1
      omega
    · intro hx
      exact absurd (show c.nCam - 1 + c.nEng = 1 from hx) (by omega)
    · intro hsc
      exact absurd (hI hsc).1 (by omega)
  · rw [if_neg hrep]
    have hrepn : c.reported = EngState.notStarted := by
      rcases hr : c.reported
      · rfl
      · exact absurd hr hrep
      · exact absurd hr hG
    have hum0 : c.unmatched = 0 := hF hrepn heng0
    refine ⟨?_, ?_, hC1, hC2, ?_, ?_, ?_, hG, ?_, ?_⟩
    · show c.unmatched + 1 ≤ 1
      omega
    · show c.nCam - 1 + (c.nEng + 1) ≤ 1
      omega
    · intro _
      refine ⟨?_, hrepn⟩
      show c.unmatched + 1 = 1
      omega
    · intro hns
      obtain ⟨_, h2, _⟩ := hE hns
      exact absurd (hrepn.symm.trans h2) (by simp)
    · intro _ h2
      exact absurd (show c.nEng + 1 = 0 from h2) (by omega)
    · intro _
      exact hH (by omega)
    · intro hsc
      exact absurd (hI hsc).1 (by omega)

/-- The camera-enumeration failure preserves the invariant. -/
theorem inv_camErr (c : Config) (h0 : 0 < c.nCam) (h : Inv c) :
    Inv { c with nCam := c.nCam - 1, scanningR := false, initializingR := false } := by
  obtain ⟨hA, hB, hC1, hC2, hD, hE, hF, hG, hH, hI⟩ := h
  have hcam1 : c.nCam = 1 := by omega
  have heng0 : c.nEng = 0 := by omega
  refine ⟨hA, ?_, hC1, hC2, hD, ?_, hF, hG, ?_, ?_⟩
  · show c.nCam - 1 + c.nEng ≤ 1
    omega
  · intro hns
    obtain ⟨h1, h2, _⟩ := hE hns
    exact ⟨h1, h2, rfl⟩
  · intro hx
    exact absurd (show c.nCam - 1 + c.nEng = 1 from hx) (by omega)
  · intro hsc
    exact Bool.noConfusion hsc

/-- The engine-start success resolution preserves the invariant. -/
theorem inv_engOk (c : Config) (h0 : 0 < c.nEng) (h : Inv c) :
    Inv { c with nEng := c.nEng - 1, reported := EngState.scanning,
                 scanningR := true, initializingR := false } := by
  obtain ⟨hA, hB, hC1, hC2, hD, hE, hF, hG, hH, hI⟩ := h
  have heng1 : c.nEng = 1 := by omega
  have hcam0 : c.nCam = 0 := by omega
  obtain ⟨hum1, hrepn⟩ := hD heng1
  have hstop0 : c.nStop = 0 := by
    by_contra hns
    have hsum : c.nStop + c.nClear ≥ 1 := by omega
    have h1 : c.nStop + c.nClear = 1 := by
      rcases hsb : c.stoppingR
      · have := hC2 hsb; omega
      · exact hC1 hsb
    have h2 : c.nStop = 1 := by omega
    obtain ⟨_, h3, _⟩ := hE h2
    exact absurd (hrepn.symm.trans h3) (by simp)
  refine ⟨hA, ?_, hC1, hC2, ?_, ?_, ?_, ?_, ?_, ?_⟩
  · show c.nCam + (c.nEng - 1) ≤ 1
    omega
  · intro hx
    exact absurd (show c.nEng - 1 = 1 from hx) (by omega)
  · intro hx
    exact absurd (show c.nStop = 1 from hx) (by omega)
  · intro hx
    exact absurd hx (by simp)
  · intro hx
    exact EngState.noConfusion hx
  · intro hx
    exact absurd (show c.nCam + (c.nEng - 1) = 1 from hx) (by omega)
  · intro _
    refine ⟨hcam0, ?_, rfl⟩
    show c.nEng - 1 = 0
    omega

/-- The engine-start failure resolution preserves the invariant. -/
theorem inv_engErr (c : Config) (h0 : 0 < c.nEng) (h : Inv c) :
    Inv { c with nEng := c.nEng - 1, scanningR := false,
                 initializingR := false, unmatched := c.unmatched - 1 } := by
  obtain ⟨hA, hB, hC1, hC2, hD, hE, hF, hG, hH, hI⟩ := h
  have heng1 : c.nEng = 1 := by omega
  have hcam0 : c.nCam = 0 := by omega
  obtain ⟨hum1, hrepn⟩ := hD heng1
  refine ⟨?_, ?_, hC1, hC2, ?_, ?_, ?_, hG, ?_, ?_⟩
  · show c.unmatched - 1 ≤ 1
    omega
  · show c.nCam + (c.nEng - 1) ≤ 1
    omega
  · intro hx
    exact absurd (show c.nEng - 1 = 1 from hx) (by omega)
  · intro hns
    obtain ⟨_, h2, _⟩ := hE hns
    exact absurd (hrepn.symm.trans h2) (by simp)
  · intro _ _
    show c.unmatched - 1 = 0
    omega
  · intro hx
    exact absurd (show c.nCam + (c.nEng - 1) = 1 from hx) (by omega)
  · intro hsc
    exact Bool.noConfusion hsc

/-- The engine-stop success resolution preserves the invariant. -/
theorem inv_stopOk (c : Config) (h0 : 0 < c.nStop) (h : Inv c) :
    Inv { c with nStop := c.nStop - 1, reported := EngState.notStarted,
                 nClear := c.nClear + 1, clearsIssued := c.clearsIssued + 1 } := by
  obtain ⟨hA, hB, hC1, hC2, hD, hE, hF, hG, hH, hI⟩ := h
  have hstopT : c.stoppingR = true := by
    rcases hsb : c.stoppingR
    · have := hC2 hsb
      exact absurd h0 (by omega)
    · rfl
  have hsum := hC1 hstopT
  have hnstop1 : c.nStop = 1 := by omega
  obtain ⟨hum0, hreps, hscf⟩ := hE hnstop1
  have heng0 : c.nEng = 0 := by
    by_contra hne
    have h1 : c.nEng = 1 := by omega
    obtain ⟨_, h2⟩ := hD h1
    exact absurd (hreps.symm.trans h2) (by simp)
  refine ⟨hA, hB, ?_, ?_, ?_, ?_, ?_, ?_, hH, ?_⟩
  · intro _
    show c.nStop - 1 + (c.nClear + 1) = 1
    omega
  · intro hx
    have hx2 : c.stoppingR = false := hx
    rw [hstopT] at hx2
    exact Bool.noConfusion hx2
  · intro h1
    exact absurd (show c.nEng = 1 from h1) (by omega)
  · intro h1
    exact absurd (show c.nStop - 1 = 1 from h1) (by omega)
  · intro _ _
    exact hum0
  · intro hx
    exact EngState.noConfusion hx
  · intro hsc
    have hx : c.scanningR = true := hsc
    rw [hscf] at hx
    exact Bool.noConfusion hx

/-- The engine-stop failure resolution preserves the invariant. -/
theorem inv_stopErr (c : Config) (h0 : 0 < c.nStop) (h : Inv c) :
    Inv { c with nStop := c.nStop - 1, stoppingR := false } := by
  obtain ⟨hA, hB, hC1, hC2, hD, hE, hF, hG, hH, hI⟩ := h
  have hstopT : c.stoppingR = true := by
    rcases hsb : c.stoppingR
    · have := hC2 hsb
      exact absurd h0 (by omega)
    · rfl
  have hsum := hC1 hstopT
  refine ⟨hA, hB, ?_, ?_, hD, ?_, hF, hG, hH, hI⟩
  · intro hx
    exact Bool.noConfusion hx
  · intro _
    show c.nStop - 1 + c.nClear = 0
    omega
  · intro h1
    exact absurd (show c.nStop - 1 = 1 from h1) (by omega)

/-- The engine-clear resolution (success or swallowed failure) preserves
the invariant. -/
theorem inv_clearDone (c : Config) (h0 : 0 < c.nClear) (h : Inv c) :
    Inv { c with nClear := c.nClear - 1, stoppingR := false } := by
  obtain ⟨hA, hB, hC1, hC2, hD, hE, hF, hG, hH, hI⟩ := h
  have hstopT : c.stoppingR = true := by
    rcases hsb : c.stoppingR
    · have := hC2 hsb
      exact absurd h0 (by omega)
    · rfl
  have hsum := hC1 hstopT
  refine ⟨hA, hB, ?_, ?_, hD, ?_, hF, hG, hH, hI⟩
  · intro hx
    exact Bool.noConfusion hx
  · intro _
    show c.nStop + (c.nClear - 1) = 0
    omega
  · intro h1
    exact absurd (show c.nStop = 1 from h1) (by omega)

/-- Every step preserves the invariant. -/
theorem inv_step {c c2 : Config} (hs : Step c c2) (h : Inv c) : Inv c2 := by
  cases hs with
  | startReq => exact inv_startScanning c h
  | stopReq => exact inv_stopScanning c h
  | unmount => exact inv_unmount c h
  | camOk h0 => exact inv_camOk c h0 h
  | camErr h0 => exact inv_camErr c h0 h
  | engOk h0 => exact inv_engOk c h0 h
  | engErr h0 => exact inv_engErr c h0 h
  | stopOk h0 => exact inv_stopOk c h0 h
  | stopErr h0 => exact inv_stopErr c h0 h
  | clearDone h0 => exact inv_clearDone c h0 h

/-- Every reachable configuration satisfies the invariant. -/
theorem inv_reach (c : Config) (h : Reach c) : Inv c := by
  induction h with
  | refl => exact inv_init
  | tail _ hstep ih => exact inv_step hstep ih

/-- The configuration in which the controller is scanning is reachable:
start request, camera resolution, engine-start resolution. -/
theorem reach_cMidScan : Reach cMidScan :=
  Relation.ReflTransGen.tail
    (Relation.ReflTransGen.tail
      (Relation.ReflTransGen.tail Relation.ReflTransGen.refl (Step.startReq init))
      (Step.camOk (startScanning init) (by decide)))
    (Step.engOk _ (by decide))

/-- The configuration with a stop in flight is reachable. -/
theorem reach_cMidStop : Reach cMidStop :=
  Relation.ReflTransGen.tail reach_cMidScan (Step.stopReq cMidScan)

end CheckIn


namespace CheckIn

/-- Claim C1: for every interleaving of start/stop (and restart = stop then
start) requests issued without awaiting completion, the controller never
holds two concurrent active sessions: in every reachable configuration at
most one engine `start` call is outstanding without a matching engine
`stop` (`unmatched ≤ 1`); and a start request is dropped as a no-op
whenever the controller is already initializing, already scanning, or has
been torn down. -/
theorem c1_single_session (c : Config) (h : Reach c) :
    c.unmatched ≤ 1 ∧
    ∀ d : Config,
      (d.scanningR = true ∨ d.initializingR = true ∨ d.mounted = false) →
      startScanning d = d := by
  refine ⟨(inv_reach c h).1, ?_⟩
  intro d hd
  have hg : (d.scanningR || d.initializingR || !d.mounted) = true := by
    rcases hd with h1 | h1 | h1 <;> simp [h1]
  rw [startScanning, if_pos hg]

/-- Witness for C1: the reachable scanning configuration has one live
session, and a start request on it is dropped. -/
theorem c1_witness :
    cMidScan.unmatched ≤ 1 ∧ startScanning cMidScan = cMidScan :=
  ⟨(c1_single_session cMidScan reach_cMidScan).1,
   (c1_single_session cMidScan reach_cMidScan).2 cMidScan (Or.inl rfl)⟩

/-- Claim C2 (amended): in the stopping-flag controllers (`CheckInQRScan`
and the guarded `QrScanner` variant), a stop request arriving while a stop
is already in its stopping phase returns immediately as a no-op, and in
every reachable configuration at most one engine stop/clear operation is
pending, so concurrent stops issue at most one stop/clear pair. -/
theorem c2_guarded_stop_noop (c : Config) (h : Reach c) :
    c.nStop + c.nClear ≤ 1 ∧ (c.stoppingR = true → stopScanning c = c) := by
  obtain ⟨_, _, hC1, hC2, _, _, _, _, _, _⟩ := inv_reach c h
  constructor
  · rcases hsb : c.stoppingR
    · have := hC2 hsb; omega
    · have := hC1 hsb; omega
  · intro hst
    rw [stopScanning, if_pos hst]

/-- Witness for C2 (amended): with the first stop still awaiting the
engine, a second stop request is a no-op. -/
theorem c2_witness :
    cMidStop.nStop + cMidStop.nClear ≤ 1 ∧ stopScanning cMidStop = cMidStop :=
  ⟨(c2_guarded_stop_noop cMidStop reach_cMidStop).1,
   (c2_guarded_stop_noop cMidStop reach_cMidStop).2 rfl⟩

/-- A record update that writes the value a field already has is the
identity. -/
theorem eq_of_scanningR_false (x : Config) (h : x.scanningR = false) :
    { x with scanningR := false } = x := by
  cases x
  simp_all

/-- `StepOk` preserves the after-teardown invariant. -/
theorem post_step {S K : Nat} {x y : Config} (hs : StepOk x y) (h : Post S K x) :
    Post S K y := by
  obtain ⟨hm, hi, hsc, hcam, heng, hpau, hrs, hP1, hP2, hS, hK, hcl⟩ := h
  cases hs with
  | startReq =>
    have hg : (x.scanningR || x.initializingR || !x.mounted) = true := by
      rw [hm]; simp
    rw [startScanning, if_pos hg]
    exact ⟨hm, hi, hsc, hcam, heng, hpau, hrs, hP1, hP2, hS, hK, hcl⟩
  | stopReq =>
    by_cases hst : x.stoppingR = true
    · rw [stopScanning, if_pos hst]
      exact ⟨hm, hi, hsc, hcam, heng, hpau, hrs, hP1, hP2, hS, hK, hcl⟩
    · have hstf : x.stoppingR = false := by simpa using hst
      have hrepn : x.reported = EngState.notStarted := by
        rcases hr : x.reported
        · rfl
        · have h2 := hrs hr
          rw [hstf] at h2
          exact Bool.noConfusion h2
        · exact absurd hr hpau
      have hact : ¬(engineActive x.reported = true) := by
        rw [hrepn]; simp [engineActive]
      rw [stopScanning, if_neg hst, if_neg hact]
      exact ⟨hm, hi, rfl, hcam, heng, hpau, hrs, hP1, hP2, hS, hK, hcl⟩
  | unmount =>
    have hns : ¬(x.scanningR = true) := by simp [hsc]
    rw [unmountCleanup, if_neg hns]
    exact ⟨rfl, rfl, hsc, hcam, heng, hpau, hrs, hP1, hP2, hS, hK, hcl⟩
  | camOk h0 => exact absurd h0 (by omega)
  | camErr h0 => exact absurd h0 (by omega)
  | engOk h0 => exact absurd h0 (by omega)
  | engErr h0 => exact absurd h0 (by omega)
  | stopOk h0 =>
    have hstopT : x.stoppingR = true := by
      rcases hsb : x.stoppingR
      · have := hP2 hsb
        exact absurd h0 (by omega)
      · rfl
    have hsum := hP1 hstopT
    refine ⟨hm, hi, hsc, hcam, heng, ?_, ?_, ?_, ?_, hS, ?_, ?_⟩
    · intro hx
      exact EngState.noConfusion hx
    · intro hx
      exact EngState.noConfusion hx
    · intro _
      show x.nStop - 1 + (x.nClear + 1) = 1
      omega
    · intro hfx
      have hfx2 : x.stoppingR = false := hfx
      rw [hstopT] at hfx2
      exact Bool.noConfusion hfx2
    · show x.clearsIssued + 1 + (x.nStop - 1) = K
      omega
    · intro _
      rfl
  | clearDone h0 =>
    have hstopT : x.stoppingR = true := by
      rcases hsb : x.stoppingR
      · have := hP2 hsb
        exact absurd h0 (by omega)
      · rfl
    have hsum := hP1 hstopT
    have hrepn : x.reported = EngState.notStarted := hcl (by omega)
    refine ⟨hm, hi, hsc, hcam, heng, hpau, ?_, ?_, ?_, hS, ?_, ?_⟩
    · intro hx
      have hx2 : x.reported = EngState.scanning := hx
      rw [hrepn] at hx2
      exact EngState.noConfusion hx2
    · intro hfx
      exact Bool.noConfusion hfx
    · intro _
      show x.nStop + (x.nClear - 1) = 0
      omega
    · show x.clearsIssued + x.nStop = K
      exact hK
    · intro hx
      exact absurd (show x.nClear - 1 = 1 from hx) (by omega)

/-- The after-teardown invariant propagates along `StepOk` sequences. -/
theorem post_reach {S K : Nat} {d x : Config} (hd : Post S K d)
    (h : Relation.ReflTransGen StepOk d x) : Post S K x := by
  induction h with
  | refl => exact hd
  | tail _ hstep ih => exact post_step hstep ih

/-- In an after-teardown state, a start request is a no-op. -/
theorem post_start_eq {S K : Nat} (x : Config) (h : Post S K x) :
    startScanning x = x := by
  obtain ⟨hm, -⟩ := h
  rw [startScanning, if_pos (by rw [hm]; simp)]

/-- In an after-teardown state, a stop request is a no-op. -/
theorem post_stop_eq {S K : Nat} (x : Config) (h : Post S K x) :
    stopScanning x = x := by
  obtain ⟨hm, hi, hsc, hcam, heng, hpau, hrs, hP1, hP2, hS, hK, hcl⟩ := h
  by_cases hst : x.stoppingR = true
  · rw [stopScanning, if_pos hst]
  · have hstf : x.stoppingR = false := by simpa using hst
    have hrepn : x.reported = EngState.notStarted := by
      rcases hr : x.reported
      · rfl
      · have h2 := hrs hr
        rw [hstf] at h2
        exact Bool.noConfusion h2
      · exact absurd hr hpau
    have hact : ¬(engineActive x.reported = true) := by
      rw [hrepn]; simp [engineActive]
    rw [stopScanning, if_neg hst, if_neg hact]
    exact eq_of_scanningR_false x hsc

/-- Unmounting a scanning controller runs `stopScanning`, which issues the
engine stop immediately. -/
theorem unmountCleanup_scanning (c : Config) (hs : c.scanningR = true)
    (hst : c.stoppingR = false) (hreps : c.reported = EngState.scanning) :
    unmountCleanup c =
      { c with mounted := false, initializingR := false, stoppingR := true,
               scanningR := false, nStop := c.nStop + 1,
               stopsIssued := c.stopsIssued + 1,
               unmatched := c.unmatched - 1 } := by
  have h1 : ¬(({ c with mounted := false, initializingR := false } : Config).stoppingR = true) := by
    simp [hst]
  have h2 : engineActive ({ c with mounted := false, initializingR := false } : Config).reported = true := by
    simp [hreps, engineActive]
  rw [unmountCleanup, if_pos hs, stopScanning, if_neg h1, if_pos h2]

/-- `startScanning` never changes the mounted flag. -/
theorem startScanning_mounted (c : Config) :
    (startScanning c).mounted = c.mounted := by
  rw [startScanning]
  split <;> rfl

/-- `stopScanning` never changes the mounted flag. -/
theorem stopScanning_mounted (c : Config) :
    (stopScanning c).mounted = c.mounted := by
  rw [stopScanning]
  split
  · rfl
  · split <;> rfl

/-- The unmount cleanup always leaves the component unmounted. -/
theorem unmountCleanup_mounted (c : Config) :
    (unmountCleanup c).mounted = false := by
  rw [unmountCleanup]
  split
  · rw [stopScanning_mounted]
  · rfl

/-- No step of the full semantics can remount the component. -/
theorem step_mounted_false {x y : Config} (hs : Step x y)
    (h : x.mounted = false) : y.mounted = false := by
  cases hs with
  | startReq => rw [startScanning_mounted]; exact h
  | stopReq => rw [stopScanning_mounted]; exact h
  | unmount => exact unmountCleanup_mounted x
  | camOk h0 => split <;> exact h
  | camErr h0 => exact h
  | engOk h0 => exact h
  | engErr h0 => exact h
  | stopOk h0 => exact h
  | stopErr h0 => exact h
  | clearDone h0 => exact h

/-- Unmountedness propagates along every `Step` sequence. -/
theorem reach_mounted_false {d x : Config} (h : d.mounted = false)
    (hr : Relation.ReflTransGen Step d x) : x.mounted = false := by
  induction hr with
  | refl => exact h
  | tail _ hstep ih => exact step_mounted_false hstep ih

/-- Claim C7 (amended): tearing down the controller while it is scanning
issues the engine stop immediately (its rejection is swallowed), and
disposal is terminal for starts: along every continuation of the full
semantics the component stays unmounted and every subsequent start request
is dropped as a no-op.  Along continuations in which the issued engine
stop resolves (`StepOk`), exactly one engine stop and at most one clear
are ever issued — one stop/clear pair — and every subsequent stop request
is also a no-op.  When the engine stop rejects instead, a later stop
request passes the guard and issues a second engine stop (see the C7
counterexample), so the pair is unique and stops are rejected only in the
resolving case. -/
theorem c7_teardown (c : Config) (hre : Reach c) (_hm : c.mounted = true)
    (hs : c.scanningR = true) (hst : c.stoppingR = false) :
    (unmountCleanup c).stopsIssued = c.stopsIssued + 1 ∧
    (unmountCleanup c).clearsIssued = c.clearsIssued ∧
    (∀ x, Relation.ReflTransGen Step (unmountCleanup c) x →
      x.mounted = false ∧ startScanning x = x) ∧
    ∀ x, Relation.ReflTransGen StepOk (unmountCleanup c) x →
      x.stopsIssued = c.stopsIssued + 1 ∧
      x.clearsIssued ≤ c.clearsIssued + 1 ∧
      startScanning x = x ∧ stopScanning x = x := by
  obtain ⟨hA, hB, hC1, hC2, hD, hE, hF, hG, hH, hI⟩ := inv_reach c hre
  obtain ⟨hcam0, heng0, hreps⟩ := hI hs
  have hsum0 := hC2 hst
  have hd := unmountCleanup_scanning c hs hst hreps
  have hpost0 : Post (c.stopsIssued + 1) (c.clearsIssued + 1) (unmountCleanup c) := by
    rw [hd]
    refine ⟨rfl, rfl, rfl, hcam0, heng0, hG, ?_, ?_, ?_, rfl, ?_, ?_⟩
    · intro _
      rfl
    · intro _
      show c.nStop + 1 + c.nClear = 1
      omega
    · intro hx
      exact Bool.noConfusion hx
    · show c.clearsIssued + (c.nStop + 1) = c.clearsIssued + 1
      omega
    · intro hx
      exact absurd (show c.nClear = 1 from hx) (by omega)
  refine ⟨by rw [hd], by rw [hd], ?_, ?_⟩
  · intro x hx
    have hxm : x.mounted = false :=
      reach_mounted_false (unmountCleanup_mounted c) hx
    refine ⟨hxm, ?_⟩
    rw [startScanning, if_pos (by rw [hxm]; simp)]
  · intro x hx
    have hpx := post_reach hpost0 hx
    have hcopy := hpx
    obtain ⟨-, -, -, -, -, -, -, -, -, hS, hK, -⟩ := hcopy
    exact ⟨hS, by omega, post_start_eq x hpx, post_stop_eq x hpx⟩

/-- Witness for C7 (amended): teardown from the reachable scanning
configuration issues the engine stop at once, and immediately afterwards
start and stop requests are no-ops. -/
theorem c7_witness :
    (unmountCleanup cMidScan).stopsIssued = cMidScan.stopsIssued + 1 ∧
    startScanning (unmountCleanup cMidScan) = unmountCleanup cMidScan ∧
    stopScanning (unmountCleanup cMidScan) = unmountCleanup cMidScan := by
  obtain ⟨h1, -, -, h3⟩ := c7_teardown cMidScan reach_cMidScan rfl rfl rfl
  obtain ⟨-, -, h4, h5⟩ :=
    h3 (unmountCleanup cMidScan) Relation.ReflTransGen.refl
  exact ⟨h1, h4, h5⟩

end CheckIn

/-- Counterexample for C7: teardown while scanning is not unconditionally
terminal for stops, and the stop/clear pair is not unconditionally unique.
From the reachable scanning configuration, the unmount cleanup issues the
engine stop; when that stop rejects (`stopErr`, a step of the full
semantics matching the source's empty `catch` plus `finally`), the
controller reaches `cAfterStopErr`: unmounted, `stoppingRef` reset, engine
still reporting scanning.  A stop request there — `stopScanning`'s guard
checks only `qrRef`/`stoppingRef`, and the still-registered decode
callback can invoke it after unmount — is not rejected: it issues a second
engine stop, for two engine stops and zero clears after a single
teardown. -/
theorem c7_counterexample :
    CheckIn.Reach CheckIn.cMidScan ∧
    (CheckIn.unmountCleanup CheckIn.cMidScan).stopsIssued = 1 ∧
    Relation.ReflTransGen CheckIn.Step
      (CheckIn.unmountCleanup CheckIn.cMidScan) CheckIn.cAfterStopErr ∧
    CheckIn.stopScanning CheckIn.cAfterStopErr ≠ CheckIn.cAfterStopErr ∧
    (CheckIn.stopScanning CheckIn.cAfterStopErr).stopsIssued = 2 ∧
    (CheckIn.stopScanning CheckIn.cAfterStopErr).clearsIssued = 0 := by
  refine ⟨CheckIn.reach_cMidScan, by decide, ?_, by decide, by decide, by decide⟩
  exact Relation.ReflTransGen.tail Relation.ReflTransGen.refl
    (CheckIn.Step.stopErr (CheckIn.unmountCleanup CheckIn.cMidScan) (by decide))

/-- Counterexample for C2: the cited first `QrScanner` variant (lines
121-138) has no stopping flag, and its `scanningRef` is cleared only after
the stop/clear awaits.  The configuration `OG.ogMid`, in which a first stop
has issued the engine stop and is awaiting it, is reachable; a second stop
request there is not a no-op: it passes the `!scanningRef` guard, sees the
engine still reporting scanning, and issues a second engine stop, giving
two engine stop calls in flight with no clear issued. -/
theorem c2_counterexample :
    OG.Reach OG.ogMid ∧
    OG.stopScanning OG.ogMid ≠ OG.ogMid ∧
    (OG.stopScanning OG.ogMid).stopsIssued = 2 ∧
    (OG.stopScanning OG.ogMid).nStop = 2 ∧
    OG.ogMid.clearsIssued = 0 := by
  refine ⟨?_, by decide, by decide, by decide, by decide⟩
  exact
    Relation.ReflTransGen.tail
      (Relation.ReflTransGen.tail
        (Relation.ReflTransGen.tail
          (Relation.ReflTransGen.tail Relation.ReflTransGen.refl
            (OG.Step.startReq OG.init))
          (OG.Step.camOk (OG.startScanning OG.init) (by decide)))
        (OG.Step.engOk _ (by decide)))
      (OG.Step.stopReq _)

end ScannerApp
